import Mathlib

/-!
Verification of the allocation-metadata walker of `vmdk_analyzer.py`.

The Python program is embedded shallowly:
* the input stream is a total byte source `img : Nat → Nat` (values taken mod 256)
  together with the file's byte length `filesize`; `struct.unpack` of little-endian
  integers becomes `readU32` / `readU64`;
* the mutable `VmdkParser` object becomes the state record `VmdkState`, passed
  explicitly; the stream position (`i.tell()`) is the `pos` field, updated by the
  seeks and reads exactly where the source performs them;
* Python runtime exceptions that the core can raise (`IndexError` from
  `self.blocks[idx]`, `AttributeError` from reading a never-assigned attribute,
  `ZeroDivisionError`, and the explicit `raise Exception` on a bad magic) become
  the `Except PyErr` monad; an uncaught exception aborts the remaining traversal,
  as in the source (where `main` merely catches and prints it);
* `self.used_sectors` is assigned only by `parse_v3_header`; it is modelled as
  `Option Nat` where `none` means "attribute never assigned", so that reading it
  in that case is an `AttributeError` (nothing in the program ever assigns the
  Python value `None` to it);
* the `d(...)` informational prints produce no observable state and are dropped;
  `e(...)` appends an offset-tagged message to `errors` (the source additionally
  prefixes the offset into the printed text, which changes no content);
* Python 3 true division of two non-negative ints produces the correctly
  rounded IEEE-754 double of the exact quotient; `int(...)` then truncates
  toward zero.  This is modelled exactly by `pyTrueDivInt` below (round to
  nearest, ties to even, at 53-bit precision; the operands here are below 2^65,
  far inside the normal, non-overflowing range).  Both division sites go
  through it: the `gd_size` computation of `parse_v4_header` and `__init__`'s
  `self.blocks = [None] * int(filesize / SECTOR_SIZE)`;
* `struct.unpack` raises `struct.error` when `read(n)` returns fewer than the
  `n` requested bytes, i.e. when a non-empty read would extend past end of
  file; the variable-size directory and table reads of `parse_gd` and
  `parse_gt` check this bound against `filesize` and fail with `structError`
  exactly when the source does.  The two fixed-size header reads (40 and 75
  bytes at stream position 4) and the 4-byte magic read are modelled as
  in-bounds: every concrete input below is far longer than 79 bytes, and a run
  can only return successfully when the allocation map is non-empty, which
  forces `filesize ≥ 512`, so on every successful run the real header reads
  are in-bounds as well (the one theorem concluding a *failure* for a whole
  input class, `C3_v4_never_completes`, is only reinforced by a real
  `struct.error` in the header).
-/

def SECTOR_SIZE : Nat := 512

structure ErrMsg where
  offset : Nat
  text : String
deriving DecidableEq, Repr

inductive PyErr where
  | indexError
  | attributeError
  | zeroDivision
  | badMagic
  | structError
deriving DecidableEq, Repr

instance {ε α : Type} [DecidableEq ε] [DecidableEq α] : DecidableEq (Except ε α) := fun x y =>
  match x, y with
  | .ok a, .ok b =>
    if h : a = b then .isTrue (by rw [h]) else .isFalse (fun hc => by cases hc; exact h rfl)
  | .error a, .error b =>
    if h : a = b then .isTrue (by rw [h]) else .isFalse (fun hc => by cases hc; exact h rfl)
  | .ok _, .error _ => .isFalse (fun hc => by cases hc)
  | .error _, .ok _ => .isFalse (fun hc => by cases hc)

/-- The mutable state of a `VmdkParser` object.  `__init__` assigns `errors`,
`filesize` and `blocks`; the remaining numeric attributes are assigned before
first use during `parse`, so giving them a `0` default is unobservable.
`used_sectors` keeps its "never assigned" state explicitly (see module header). -/
structure VmdkState where
  filesize : Nat
  pos : Nat
  blocks : List (Option (Nat × Nat))
  errors : List ErrMsg
  version : Nat
  capacity : Nat
  granularity : Nat
  gd_offset : Nat
  gd_size : Nat
  gt_size : Nat
  used_sectors : Option Nat
  gtes : Nat
  gts : Nat
  used_blocks : Nat
deriving DecidableEq, Repr

def byteAt (img : Nat → Nat) (o : Nat) : Nat := img o % 256

/-- One little-endian 32-bit field of a `struct.unpack` result. -/
def readU32 (img : Nat → Nat) (o : Nat) : Nat :=
  byteAt img o + 256 * byteAt img (o + 1) + 256 ^ 2 * byteAt img (o + 2) +
    256 ^ 3 * byteAt img (o + 3)

/-- One little-endian 64-bit field of a `struct.unpack` result. -/
def readU64 (img : Nat → Nat) (o : Nat) : Nat :=
  readU32 img o + 256 ^ 4 * readU32 img (o + 4)

/-- Round `p / q` to the nearest integer, ties to even (`q > 0`). -/
def rne (p q : Nat) : Nat :=
  if 2 * (p % q) < q then p / q
  else if q < 2 * (p % q) then p / q + 1
  else if (p / q) % 2 = 0 then p / q else p / q + 1

/-- `Nat.log2` by structural recursion on a fuel bound (so that it reduces in
the kernel); `natLog2` below instantiates the fuel, and `natLog2_eq_log2`
proves it equal to `Nat.log2`. -/
def log2fuel : Nat → Nat → Nat
  | 0, _ => 0
  | fuel + 1, n => if n < 2 then 0 else log2fuel fuel (n / 2) + 1

def natLog2 (n : Nat) : Nat := log2fuel n n

theorem log2fuel_eq (fuel : Nat) : ∀ n, n ≤ fuel → log2fuel fuel n = Nat.log2 n := by
  induction fuel with
  | zero =>
    intro n hn
    have h0 : n = 0 := by omega
    subst h0
    rw [show log2fuel 0 0 = 0 from rfl, Nat.log2]
    simp
  | succ m ih =>
    intro n hn
    show (if n < 2 then 0 else log2fuel m (n / 2) + 1) = Nat.log2 n
    by_cases h2 : n < 2
    · rw [if_pos h2, Nat.log2, if_neg (by omega)]
    · rw [if_neg h2, Nat.log2, if_pos (by omega), ih (n / 2) (by omega)]

theorem natLog2_eq_log2 (n : Nat) : natLog2 n = Nat.log2 n :=
  log2fuel_eq n n le_rfl

/-- `⌊log2 (a / b)⌋` of the exact rational quotient, for `a, b > 0`. -/
def floorLog2Q (a b : Nat) : Int :=
  if b ≤ a then (natLog2 (a / b) : Int)
  else -((Nat.clog 2 ((b + a - 1) / a) : Nat) : Int)

/-- `int(a / b)` in Python 3 for non-negative int operands in the double-normal
range: the exact quotient is rounded to the nearest 53-bit significand value
(ties to even), then truncated toward zero. -/
def pyTrueDivInt (a b : Nat) : Nat :=
  if a = 0 then 0
  else if 0 ≤ floorLog2Q a b - 52 then
    rne a (b * 2 ^ (floorLog2Q a b - 52).toNat) * 2 ^ (floorLog2Q a b - 52).toNat
  else
    rne (a * 2 ^ (52 - floorLog2Q a b).toNat) b / 2 ^ (52 - floorLog2Q a b).toNat

/-- Exact ceiling division on naturals, `⌈a / b⌉ = (a + b - 1) / b` for `b > 0`. -/
def ceilDivNat (a b : Nat) : Nat := (a + b - 1) / b

/-- `VmdkParser.__init__`: `self.blocks = [None] * int(filesize / SECTOR_SIZE)`.
The division is Python float true division, modelled by `pyTrueDivInt` (it
agrees with the floor quotient for every `filesize < 2^53`, but not beyond:
see `pyTrueDivInt_pow2` and the C7 theorems). -/
def initState (filesize : Nat) : VmdkState :=
  { filesize := filesize
    pos := 0
    blocks := List.replicate (pyTrueDivInt filesize SECTOR_SIZE) none
    errors := []
    version := 0
    capacity := 0
    granularity := 0
    gd_offset := 0
    gd_size := 0
    gt_size := 0
    used_sectors := none
    gtes := 0
    gts := 0
    used_blocks := 0 }

/-- `parse_magic`: read 4 bytes; `COWD` is version 3, `KDMV` is version 4,
anything else raises. -/
def parse_magic (img : Nat → Nat) (s : VmdkState) : Except PyErr VmdkState :=
  if byteAt img s.pos = 67 ∧ byteAt img (s.pos + 1) = 79 ∧
     byteAt img (s.pos + 2) = 87 ∧ byteAt img (s.pos + 3) = 68 then
    .ok { s with pos := s.pos + 4, version := 3 }
  else if byteAt img s.pos = 75 ∧ byteAt img (s.pos + 1) = 68 ∧
     byteAt img (s.pos + 2) = 77 ∧ byteAt img (s.pos + 3) = 86 then
    .ok { s with pos := s.pos + 4, version := 4 }
  else .error .badMagic

/-- `parse_v3_header`: `struct.unpack("<10I", read(40))`; fields 2..6 are
capacity, granularity, gd_offset, gd_size, used_sectors; `gt_size = 4096`. -/
def parse_v3_header (img : Nat → Nat) (s : VmdkState) : VmdkState :=
  { s with
    pos := s.pos + 40
    capacity := readU32 img (s.pos + 8)
    granularity := readU32 img (s.pos + 12)
    gd_offset := readU32 img (s.pos + 16)
    gd_size := readU32 img (s.pos + 20)
    used_sectors := some (readU32 img (s.pos + 24))
    gt_size := 4096 }

/-- `parse_v4_header`: `struct.unpack("<II4QI3Q5cH", read(75))`; capacity and
granularity are the u64 fields at byte offsets 8 and 16 of the record, gt_size
the u32 at 40, gd_offset the u64 at 44.  `gd_size` is derived with Python float
true division: `int((capacity + l1_sectors - 1) / l1_sectors)`; a zero
`l1_sectors` raises `ZeroDivisionError`.  `used_sectors` is *not* assigned. -/
def parse_v4_header (img : Nat → Nat) (s : VmdkState) : Except PyErr VmdkState :=
  if readU32 img (s.pos + 40) * readU64 img (s.pos + 16) = 0 then .error .zeroDivision
  else .ok { s with
    pos := s.pos + 75
    capacity := readU64 img (s.pos + 8)
    granularity := readU64 img (s.pos + 16)
    gt_size := readU32 img (s.pos + 40)
    gd_offset := readU64 img (s.pos + 44)
    gd_size := pyTrueDivInt
      (readU64 img (s.pos + 8) + readU32 img (s.pos + 40) * readU64 img (s.pos + 16) - 1)
      (readU32 img (s.pos + 40) * readU64 img (s.pos + 16)) }

/-- `parse_header`: dispatch on the decoded version. -/
def parse_header (img : Nat → Nat) (s : VmdkState) : Except PyErr VmdkState :=
  if s.version = 4 then parse_v4_header img s
  else if s.version = 3 then .ok (parse_v3_header img s)
  else .error .badMagic

def conflictText (idx a b : Nat) : String :=
  "Block " ++ toString idx ++ " already reserved by " ++ toString a ++ "," ++ toString b

/-- `reserve_block(idx, gd, gt)`.  `self.blocks[idx]` raises `IndexError` when
`idx` is not a valid index; an already-claimed sector gets a conflict message
(tagged, via `e`, with the current stream position) naming the *existing*
owner; otherwise the sector is claimed by `(gd, gt)`. -/
def reserve_block (s : VmdkState) (idx gd gt : Nat) : Except PyErr VmdkState :=
  if h : idx < s.blocks.length then
    match s.blocks.get ⟨idx, h⟩ with
    | some p => .ok { s with errors := s.errors ++ [⟨s.pos, conflictText idx p.1 p.2⟩] }
    | none => .ok { s with blocks := s.blocks.set idx (some (gd, gt)) }
  else .error .indexError

/-- `for i in range(0, n): reserve_block(start + i, gd, gt)`. -/
def reserveRange (s : VmdkState) (start n gd gt : Nat) : Except PyErr VmdkState :=
  match n with
  | 0 => .ok s
  | Nat.succ m => do
    let s' ← reserve_block s start gd gt
    reserveRange s' (start + 1) m gd gt

/-- A sequence of `reserve_block` calls `(idx, gd, gt)`, in list order. -/
def reserveSeq (s : VmdkState) (l : List (Nat × Nat × Nat)) : Except PyErr VmdkState :=
  match l with
  | [] => .ok s
  | c :: rest => do
    let s' ← reserve_block s c.1 c.2.1 c.2.2
    reserveSeq s' rest

def oobText (gte : Nat) : String := "gte " ++ toString gte ++ " out of bounds"

/-- Body of the `for gte in gt` loop of `parse_gt`, for the entry `gte` at slot
`ctr` of the table that starts at byte `tableOff`: a zero entry is skipped;
otherwise `gtes` is incremented, `gte > capacity` reports an out-of-bounds
error at the entry's byte offset, and the `granularity` sectors from `gte` are
reserved for `(gd, ctr)`. -/
def gtEntry (s : VmdkState) (gd ctr gte tableOff : Nat) : Except PyErr VmdkState :=
  if gte = 0 then .ok s
  else if s.capacity < gte then
    reserveRange
      { s with gtes := s.gtes + 1, errors := s.errors ++ [⟨tableOff + ctr * 4, oobText gte⟩] }
      gte s.granularity gd ctr
  else
    reserveRange { s with gtes := s.gtes + 1 } gte s.granularity gd ctr

/-- The `for gte in gt` loop of `parse_gt`: `n` remaining entries starting at
slot `ctr`; the entry values are the little-endian u32s read from the table. -/
def gtLoop (img : Nat → Nat) (gd tableOff : Nat) :
    Nat → Nat → VmdkState → Except PyErr VmdkState
  | _, 0, s => .ok s
  | ctr, Nat.succ m, s => do
    let s' ← gtEntry s gd ctr (readU32 img (tableOff + ctr * 4)) tableOff
    gtLoop img gd tableOff (ctr + 1) m s'

/-- `parse_gt(gd, gde)`: seek to `gde * SECTOR_SIZE` and read `gt_size` u32
entries (leaving the stream after them).  `struct.unpack` raises
`struct.error` when the non-empty read would extend past end of file (a
zero-length read cannot fall short); only then count the leaf (`gts += 1`)
and run the entry loop. -/
def parse_gt (img : Nat → Nat) (s : VmdkState) (gd gde : Nat) : Except PyErr VmdkState :=
  if s.gt_size = 0 ∨ gde * SECTOR_SIZE + s.gt_size * 4 ≤ s.filesize then
    gtLoop img gd (gde * SECTOR_SIZE) 0 s.gt_size
      { s with pos := gde * SECTOR_SIZE + s.gt_size * 4, gts := s.gts + 1 }
  else .error .structError

/-- Body of the `for gde in self.gd` loop of `parse_gd`: a zero entry is
skipped; otherwise the 4 sectors `[gde, gde+4)` are reserved for `(ctr, 0)` and
the grain table at `gde` is walked. -/
def gdEntry (img : Nat → Nat) (s : VmdkState) (ctr gde : Nat) : Except PyErr VmdkState :=
  if gde = 0 then .ok s
  else do
    let s' ← reserveRange s gde 4 ctr 0
    parse_gt img s' ctr gde

/-- The `for gde in self.gd` loop: `n` remaining entries starting at slot
`ctr`; the entry values are the u32s read from the directory at `dirOff`. -/
def gdLoop (img : Nat → Nat) (dirOff : Nat) :
    Nat → Nat → VmdkState → Except PyErr VmdkState
  | _, 0, s => .ok s
  | ctr, Nat.succ m, s => do
    let s' ← gdEntry img s ctr (readU32 img (dirOff + ctr * 4))
    gdLoop img dirOff (ctr + 1) m s'

/-- `parse_gd`: reserve sectors 0 and 1 for `(0, 0)`, zero the counters, read
the `gd_size` directory entries at `gd_offset * SECTOR_SIZE` (leaving the
stream after them; a non-empty read past end of file raises `struct.error`)
and run the directory loop. -/
def parse_gd (img : Nat → Nat) (s : VmdkState) : Except PyErr VmdkState := do
  let s1 ← reserve_block s 0 0 0
  let s2 ← reserve_block s1 1 0 0
  if s2.gd_size = 0 ∨ s2.gd_offset * SECTOR_SIZE + s2.gd_size * 4 ≤ s2.filesize then
    gdLoop img (s2.gd_offset * SECTOR_SIZE) 0 s2.gd_size
      { s2 with gtes := 0, gts := 0, pos := s2.gd_offset * SECTOR_SIZE + s2.gd_size * 4 }
  else .error .structError

def countSome (l : List (Option (Nat × Nat))) : Nat :=
  (l.filter fun b => b.isSome).length

def mismatchText (expect found : Nat) : String :=
  "Expected " ++ toString expect ++ " blocks used, found " ++ toString found

def hdrMismatchText (expect found : Nat) : String :=
  "Expected " ++ toString expect ++ " blocks used, found " ++ toString found ++ " in v3 header"

/-- `expect_used = self.gtes + self.gts * 4 + 2` of `check_blocks`. -/
def expectUsed (s : VmdkState) : Nat := s.gtes + s.gts * 4 + 2

/-- Second half of `check_blocks`: the comparison against the header-declared
used-sector count.  Reading `self.used_sectors` raises `AttributeError` when
the attribute was never assigned (which is the case on the version-4 path). -/
def checkUsedHdr (s : VmdkState) : Except PyErr VmdkState :=
  match s.used_sectors with
  | none => .error .attributeError
  | some us =>
    .ok (if us ≠ expectUsed s then
      { s with errors := s.errors ++ [⟨s.pos, hdrMismatchText (expectUsed s) us⟩] }
    else s)

/-- `check_blocks`: count claimed sectors, compare with `expect_used`, then
compare the header-declared count (`checkUsedHdr`).  Neither comparison
changes `gtes`/`gts`, so computing `expect_used` once per stage is faithful. -/
def check_blocks (s : VmdkState) : Except PyErr VmdkState :=
  checkUsedHdr
    (if countSome s.blocks ≠ expectUsed s then
      { s with used_blocks := countSome s.blocks,
               errors := s.errors ++ [⟨s.pos, mismatchText (expectUsed s) (countSome s.blocks)⟩] }
    else { s with used_blocks := countSome s.blocks })

/-- `VmdkParser.parse()` on an input byte source and its byte length.
`print_header` and the final summary line only print already-assigned fields
and change no state, so the run's result is the `check_blocks` result. -/
def vmdk_parse (img : Nat → Nat) (filesize : Nat) : Except PyErr VmdkState := do
  let s0 := initState filesize
  let s1 ← parse_magic img s0
  let s2 ← parse_header img s1
  let s3 ← parse_gd img s2
  check_blocks s3

/-- The owner record of sector `i` (`none` when unclaimed or out of the map). -/
def ownerAt (s : VmdkState) (i : Nat) : Option (Nat × Nat) := s.blocks.getD i none

/-- The run completed (returned from `parse` without an exception). -/
def completed (r : Except PyErr VmdkState) : Bool :=
  match r with
  | .ok _ => true
  | .error _ => false

/-- The input starts with the version-4 magic `KDMV`. -/
def isKDMV (img : Nat → Nat) : Prop :=
  byteAt img 0 = 75 ∧ byteAt img 1 = 68 ∧ byteAt img 2 = 77 ∧ byteAt img 3 = 86

instance (img : Nat → Nat) : Decidable (isKDMV img) := by
  unfold isKDMV; infer_instance

/-!  Concrete inputs.

`img3` is a well-formed version-3 two-level image, used with the byte length
20480 (40 sectors): magic `COWD`; capacity 16, granularity 1, gd_offset 4,
gd_size 1, declared used-sector count 7; directory slot 0 (at byte 2048)
points to a table at sector 6; table entry 0 (at byte 3072) points to the
in-bounds grain 12.  Every read stays inside the file — the deepest is the
4096-entry grain table occupying bytes 3072..19455 < 20480 — and every
claimed sector (0, 1, 6..9, 12) is distinct and inside the 40-record map. -/
def img3 : Nat → Nat := fun o =>
  if 3076 ≤ o then 0
  else if o = 0 then 67 else if o = 1 then 79 else if o = 2 then 87 else if o = 3 then 68
  else if o = 12 then 16 else if o = 16 then 1 else if o = 20 then 4
  else if o = 24 then 1 else if o = 28 then 7
  else if o = 2048 then 6 else if o = 3072 then 12 else 0

/-- `img3` with granularity 2 instead of 1; still a well-formed image with no
overlapping and no out-of-range reference (claims sectors 0, 1, 6..9, 12, 13). -/
def img3b : Nat → Nat := fun o => if o = 16 then 2 else img3 o

/-- A version-4 image whose single table entry (value 5000) is far outside the
allocation map of 32 sectors: magic `KDMV`; capacity 8, granularity 1,
gt_size 8 (so `gd_size = 1`), gd_offset 4; directory slot 0 (at byte 2048)
points to a table at sector 6; table entry 0 (at byte 3072) is 5000. -/
def img_oob : Nat → Nat := fun o =>
  if o = 0 then 75 else if o = 1 then 68 else if o = 2 then 77 else if o = 3 then 86
  else if o = 12 then 8 else if o = 20 then 1 else if o = 44 then 8
  else if o = 48 then 4
  else if o = 2048 then 6 else if o = 3072 then 136 else if o = 3073 then 19 else 0

/-- A version-4 header whose decoded capacity is `2^53 + 1` (bytes 12..19,
little endian), with granularity 1 and gt_size 1. -/
def img8 : Nat → Nat := fun o =>
  if o = 0 then 75 else if o = 1 then 68 else if o = 2 then 77 else if o = 3 then 86
  else if o = 12 then 1 else if o = 18 then 32
  else if o = 20 then 1 else if o = 44 then 1 else if o = 48 then 4 else 0

/-- A minimal input starting with the version-4 magic `KDMV`. -/
def img4min : Nat → Nat := fun o =>
  if o = 0 then 75 else if o = 1 then 68 else if o = 2 then 77 else if o = 3 then 86
  else 0

/-- A well-formed version-4 header: capacity 16, granularity 1, gt_size 16,
gd_offset 4. -/
def img4w : Nat → Nat := fun o =>
  if o = 0 then 75 else if o = 1 then 68 else if o = 2 then 77 else if o = 3 then 86
  else if o = 12 then 16 else if o = 20 then 1 else if o = 44 then 16
  else if o = 48 then 4 else 0

/-- A 4-sector parser state whose sector 1 is already claimed by `(1, 2)`. -/
def s5 : VmdkState :=
  { initState 2048 with blocks := [none, some (1, 2), none, none] }

/-- A 16-sector parser state with capacity 5 and granularity 1, nothing claimed. -/
def s6 : VmdkState :=
  { initState 8192 with capacity := 5, granularity := 1 }

/-!  Helper lemmas. -/

theorem exbind_ok {ε α β : Type} (a : α) (f : α → Except ε β) :
    (Except.ok a >>= f : Except ε β) = f a := rfl

theorem exbind_err {ε α β : Type} (e : ε) (f : α → Except ε β) :
    (Except.error e >>= f : Except ε β) = Except.error e := rfl

theorem ownerAt_get? (s : VmdkState) (i : Nat) :
    ownerAt s i = (s.blocks.get? i).getD none := rfl

/-- An index at or past the end of the map raises `IndexError`. -/
theorem reserve_block_oob (s : VmdkState) (idx gd gt : Nat)
    (h : s.blocks.length ≤ idx) :
    reserve_block s idx gd gt = .error .indexError := by
  unfold reserve_block
  rw [dif_neg (by omega)]

/-- An already-claimed sector: one conflict message naming the existing owner,
nothing else changes. -/
theorem reserve_block_conflict (s : VmdkState) (idx gd gt : Nat) (p : Nat × Nat)
    (h : idx < s.blocks.length) (hp : s.blocks.get ⟨idx, h⟩ = some p) :
    reserve_block s idx gd gt =
      .ok { s with errors := s.errors ++ [⟨s.pos, conflictText idx p.1 p.2⟩] } := by
  unfold reserve_block
  rw [dif_pos h, hp]

/-- An unclaimed, in-range sector: it is claimed by `(gd, gt)`, nothing else
changes. -/
theorem reserve_block_fresh (s : VmdkState) (idx gd gt : Nat)
    (h : idx < s.blocks.length) (hp : s.blocks.get ⟨idx, h⟩ = none) :
    reserve_block s idx gd gt =
      .ok { s with blocks := s.blocks.set idx (some (gd, gt)) } := by
  unfold reserve_block
  rw [dif_pos h, hp]

theorem ownerAt_some_get (s : VmdkState) (idx : Nat) (p : Nat × Nat)
    (hp : ownerAt s idx = some p) :
    ∃ h : idx < s.blocks.length, s.blocks.get ⟨idx, h⟩ = some p := by
  rw [ownerAt_get?] at hp
  cases hg : s.blocks.get? idx with
  | none => rw [hg] at hp; cases hp
  | some b =>
    have hlt : idx < s.blocks.length := List.get?_eq_some.mp hg |>.1
    refine ⟨hlt, ?_⟩
    have h2 := List.get?_eq_get hlt
    rw [hg] at h2 hp
    simp only [Option.getD_some] at hp
    injection h2 with h3
    rw [← h3]
    exact hp

/-- Everything a successful `reserve_block` call preserves or does to the
state: all scalar fields and the map length are unchanged, the error list is
only appended to, every other sector keeps its record, and a sector that was
claimed stays claimed by the same owner. -/
theorem reserve_block_spec (s : VmdkState) (idx gd gt : Nat) (s' : VmdkState)
    (h : reserve_block s idx gd gt = .ok s') :
    idx < s.blocks.length ∧
    s'.blocks.length = s.blocks.length ∧
    s'.filesize = s.filesize ∧ s'.pos = s.pos ∧ s'.version = s.version ∧
    s'.capacity = s.capacity ∧ s'.granularity = s.granularity ∧
    s'.gd_offset = s.gd_offset ∧ s'.gd_size = s.gd_size ∧ s'.gt_size = s.gt_size ∧
    s'.used_sectors = s.used_sectors ∧ s'.gtes = s.gtes ∧ s'.gts = s.gts ∧
    s'.used_blocks = s.used_blocks ∧
    (∃ tail, s'.errors = s.errors ++ tail) ∧
    (∀ j, j ≠ idx → ownerAt s' j = ownerAt s j) ∧
    (∀ p, ownerAt s idx = some p → ownerAt s' idx = some p) := by
  by_cases hlt : idx < s.blocks.length
  · cases hb : s.blocks.get ⟨idx, hlt⟩ with
    | some p =>
      rw [reserve_block_conflict s idx gd gt p hlt hb] at h
      cases h
      refine ⟨hlt, rfl, rfl, rfl, rfl, rfl, rfl, rfl, rfl, rfl, rfl, rfl, rfl, rfl,
        ⟨[⟨s.pos, conflictText idx p.1 p.2⟩], rfl⟩, fun j _ => rfl, fun q hq => hq⟩
    | none =>
      rw [reserve_block_fresh s idx gd gt hlt hb] at h
      cases h
      refine ⟨hlt, by simp, rfl, rfl, rfl, rfl, rfl, rfl, rfl, rfl, rfl, rfl, rfl, rfl,
        ⟨[], by simp⟩, ?_, ?_⟩
      · intro j hj
        rw [ownerAt_get?, ownerAt_get?]
        show ((s.blocks.set idx (some (gd, gt))).get? j).getD none = _
        rw [List.get?_set_ne _ _ (fun he => hj he.symm)]
      · intro q hq
        have : s.blocks.getD idx none = some q := hq
        rw [List.getD_eq_get?, List.get?_eq_get hlt, hb] at this
        cases this
  · rw [reserve_block_oob s idx gd gt (by omega)] at h
    cases h

/-- A claimed sector stays claimed by the same owner across one call. -/
theorem reserve_block_keeps (s : VmdkState) (idx gd gt : Nat) (s' : VmdkState)
    (h : reserve_block s idx gd gt = .ok s') (i : Nat) (p : Nat × Nat)
    (hp : ownerAt s i = some p) : ownerAt s' i = some p := by
  rcases reserve_block_spec s idx gd gt s' h with
    ⟨-, -, -, -, -, -, -, -, -, -, -, -, -, -, -, hfr, hkeep⟩
  by_cases hi : i = idx
  · subst hi; exact hkeep p hp
  · rw [hfr i hi]; exact hp
/-- What one traversal segment can do to the state: the geometry fields, the
map length and `used_sectors` are untouched, the error list is only appended
to, and a claimed sector stays claimed by the same owner. -/
def Evolves (s s' : VmdkState) : Prop :=
  s'.filesize = s.filesize ∧ s'.version = s.version ∧ s'.capacity = s.capacity ∧
  s'.granularity = s.granularity ∧ s'.gd_offset = s.gd_offset ∧
  s'.gd_size = s.gd_size ∧ s'.gt_size = s.gt_size ∧
  s'.used_sectors = s.used_sectors ∧ s'.blocks.length = s.blocks.length ∧
  (∃ tail, s'.errors = s.errors ++ tail) ∧
  (∀ i p, ownerAt s i = some p → ownerAt s' i = some p)

theorem evolves_refl (s : VmdkState) : Evolves s s :=
  ⟨rfl, rfl, rfl, rfl, rfl, rfl, rfl, rfl, rfl, ⟨[], by simp⟩, fun _ _ h => h⟩

/-- Updating only `pos`, `gtes`, `gts`, `used_blocks`, and appending to the
error list, is an evolution. -/
theorem evolves_update (s : VmdkState) (a b c d : Nat) (l : List ErrMsg) :
    Evolves s { s with pos := a, gtes := b, gts := c, used_blocks := d,
                       errors := s.errors ++ l } :=
  ⟨rfl, rfl, rfl, rfl, rfl, rfl, rfl, rfl, rfl, ⟨l, rfl⟩, fun _ _ h => h⟩

theorem evolves_trans {s t u : VmdkState} (h1 : Evolves s t) (h2 : Evolves t u) :
    Evolves s u := by
  obtain ⟨a1, a2, a3, a4, a5, a6, a7, a8, a9, ⟨ta, hta⟩, a11⟩ := h1
  obtain ⟨b1, b2, b3, b4, b5, b6, b7, b8, b9, ⟨tb, htb⟩, b11⟩ := h2
  exact ⟨b1.trans a1, b2.trans a2, b3.trans a3, b4.trans a4, b5.trans a5,
    b6.trans a6, b7.trans a7, b8.trans a8, b9.trans a9,
    ⟨ta ++ tb, by rw [htb, hta, List.append_assoc]⟩,
    fun i p hp => b11 i p (a11 i p hp)⟩

theorem reserve_block_evolves (s : VmdkState) (idx gd gt : Nat) (s' : VmdkState)
    (h : reserve_block s idx gd gt = .ok s') : Evolves s s' := by
  rcases reserve_block_spec s idx gd gt s' h with
    ⟨-, h2, h3, -, h5, h6, h7, h8, h9, h10, h11, -, -, -, h15, hfr, hkeep⟩
  refine ⟨h3, h5, h6, h7, h8, h9, h10, h11, h2, h15, ?_⟩
  intro i p hp
  by_cases hi : i = idx
  · subst hi; exact hkeep p hp
  · rw [hfr i hi]; exact hp

theorem reserveRange_succ (s : VmdkState) (start m gd gt : Nat) :
    reserveRange s start (m + 1) gd gt =
      reserve_block s start gd gt >>= fun s' => reserveRange s' (start + 1) m gd gt := rfl

theorem reserveRange_evolves (gd gt : Nat) :
    ∀ (n start : Nat) (s s' : VmdkState),
      reserveRange s start n gd gt = .ok s' → Evolves s s' := by
  intro n
  induction n with
  | zero => intro start s s' h; cases h; exact evolves_refl s
  | succ m ih =>
    intro start s s' h
    rw [reserveRange_succ] at h
    cases hmid : reserve_block s start gd gt with
    | error e => rw [hmid, exbind_err] at h; cases h
    | ok t =>
      rw [hmid, exbind_ok] at h
      exact evolves_trans (reserve_block_evolves s start gd gt t hmid) (ih (start + 1) t s' h)

theorem gtEntry_zero (s : VmdkState) (gd ctr tableOff : Nat) :
    gtEntry s gd ctr 0 tableOff = .ok s := rfl

theorem gtEntry_evolves (s : VmdkState) (gd ctr gte tableOff : Nat) (s' : VmdkState)
    (h : gtEntry s gd ctr gte tableOff = .ok s') : Evolves s s' := by
  unfold gtEntry at h
  by_cases h0 : gte = 0
  · rw [if_pos h0] at h; cases h; exact evolves_refl s
  · rw [if_neg h0] at h
    by_cases hc : s.capacity < gte
    · rw [if_pos hc] at h
      refine evolves_trans ?_ (reserveRange_evolves gd ctr s.granularity gte _ s' h)
      exact ⟨rfl, rfl, rfl, rfl, rfl, rfl, rfl, rfl, rfl,
        ⟨[⟨tableOff + ctr * 4, oobText gte⟩], rfl⟩, fun _ _ hp => hp⟩
    · rw [if_neg hc] at h
      refine evolves_trans ?_ (reserveRange_evolves gd ctr s.granularity gte _ s' h)
      exact ⟨rfl, rfl, rfl, rfl, rfl, rfl, rfl, rfl, rfl, ⟨[], by simp⟩, fun _ _ hp => hp⟩

theorem gtLoop_zero (img : Nat → Nat) (gd tableOff ctr : Nat) (s : VmdkState) :
    gtLoop img gd tableOff ctr 0 s = .ok s := rfl

theorem gtLoop_succ (img : Nat → Nat) (gd tableOff ctr m : Nat) (s : VmdkState) :
    gtLoop img gd tableOff ctr (m + 1) s =
      gtEntry s gd ctr (readU32 img (tableOff + ctr * 4)) tableOff >>=
        gtLoop img gd tableOff (ctr + 1) m := rfl

theorem gtLoop_evolves (img : Nat → Nat) (gd tableOff : Nat) :
    ∀ (n ctr : Nat) (s s' : VmdkState),
      gtLoop img gd tableOff ctr n s = .ok s' → Evolves s s' := by
  intro n
  induction n with
  | zero => intro ctr s s' h; cases h; exact evolves_refl s
  | succ m ih =>
    intro ctr s s' h
    rw [gtLoop_succ] at h
    cases hmid : gtEntry s gd ctr (readU32 img (tableOff + ctr * 4)) tableOff with
    | error e => rw [hmid, exbind_err] at h; cases h
    | ok t =>
      rw [hmid, exbind_ok] at h
      exact evolves_trans (gtEntry_evolves s gd ctr _ tableOff t hmid) (ih (ctr + 1) t s' h)

/-- A grain table whose `n` entries from slot `ctr` on all decode to zero
contributes nothing: the loop returns the state unchanged. -/
theorem gtLoop_zeros (img : Nat → Nat) (gd tableOff : Nat) :
    ∀ (n ctr : Nat) (s : VmdkState),
      (∀ j, ctr ≤ j → j < ctr + n → readU32 img (tableOff + j * 4) = 0) →
      gtLoop img gd tableOff ctr n s = .ok s := by
  intro n
  induction n with
  | zero => intro ctr s _; rfl
  | succ m ih =>
    intro ctr s h
    rw [gtLoop_succ, h ctr le_rfl (by omega), gtEntry_zero, exbind_ok]
    exact ih (ctr + 1) s (fun j h1 h2 => h j (by omega) (by omega))

theorem parse_gt_evolves (img : Nat → Nat) (s : VmdkState) (gd gde : Nat)
    (s' : VmdkState) (h : parse_gt img s gd gde = .ok s') : Evolves s s' := by
  unfold parse_gt at h
  split_ifs at h with hg
  refine evolves_trans ?_ (gtLoop_evolves img gd (gde * SECTOR_SIZE) s.gt_size 0 _ s' h)
  exact ⟨rfl, rfl, rfl, rfl, rfl, rfl, rfl, rfl, rfl, ⟨[], by simp⟩, fun _ _ hp => hp⟩

theorem gdEntry_evolves (img : Nat → Nat) (s : VmdkState) (ctr gde : Nat)
    (s' : VmdkState) (h : gdEntry img s ctr gde = .ok s') : Evolves s s' := by
  unfold gdEntry at h
  by_cases h0 : gde = 0
  · rw [if_pos h0] at h; cases h; exact evolves_refl s
  · rw [if_neg h0] at h
    cases hmid : reserveRange s gde 4 ctr 0 with
    | error e => rw [hmid, exbind_err] at h; cases h
    | ok t =>
      rw [hmid, exbind_ok] at h
      exact evolves_trans (reserveRange_evolves ctr 0 4 gde s t hmid)
        (parse_gt_evolves img t ctr gde s' h)

theorem gdLoop_zero (img : Nat → Nat) (dirOff ctr : Nat) (s : VmdkState) :
    gdLoop img dirOff ctr 0 s = .ok s := rfl

theorem gdLoop_succ (img : Nat → Nat) (dirOff ctr m : Nat) (s : VmdkState) :
    gdLoop img dirOff ctr (m + 1) s =
      gdEntry img s ctr (readU32 img (dirOff + ctr * 4)) >>=
        gdLoop img dirOff (ctr + 1) m := rfl

theorem gdLoop_evolves (img : Nat → Nat) (dirOff : Nat) :
    ∀ (n ctr : Nat) (s s' : VmdkState),
      gdLoop img dirOff ctr n s = .ok s' → Evolves s s' := by
  intro n
  induction n with
  | zero => intro ctr s s' h; cases h; exact evolves_refl s
  | succ m ih =>
    intro ctr s s' h
    rw [gdLoop_succ] at h
    cases hmid : gdEntry img s ctr (readU32 img (dirOff + ctr * 4)) with
    | error e => rw [hmid, exbind_err] at h; cases h
    | ok t =>
      rw [hmid, exbind_ok] at h
      exact evolves_trans (gdEntry_evolves img s ctr _ t hmid) (ih (ctr + 1) t s' h)

theorem parse_gd_evolves (img : Nat → Nat) (s : VmdkState) (s' : VmdkState)
    (h : parse_gd img s = .ok s') : Evolves s s' := by
  unfold parse_gd at h
  cases h1 : reserve_block s 0 0 0 with
  | error e => rw [h1, exbind_err] at h; cases h
  | ok t1 =>
    rw [h1, exbind_ok] at h
    cases h2 : reserve_block t1 1 0 0 with
    | error e => rw [h2, exbind_err] at h; cases h
    | ok t2 =>
      rw [h2, exbind_ok] at h
      split_ifs at h with hg
      refine evolves_trans (reserve_block_evolves s 0 0 0 t1 h1) ?_
      refine evolves_trans (reserve_block_evolves t1 1 0 0 t2 h2) ?_
      refine evolves_trans ?_ (gdLoop_evolves img (t2.gd_offset * SECTOR_SIZE) t2.gd_size 0 _ s' h)
      exact ⟨rfl, rfl, rfl, rfl, rfl, rfl, rfl, rfl, rfl, ⟨[], by simp⟩, fun _ _ hp => hp⟩

/-!  The complete run on `img3` and `img3b` at byte length 20480, established
step by step (the 4096-entry grain-table loop is dispatched with
`gtLoop_zeros` once the single populated slot has been evaluated). -/

/-- `img3` after `parse_magic`. -/
def st31 : VmdkState := { initState 20480 with pos := 4, version := 3 }

/-- `img3` after `parse_v3_header`. -/
def st32 : VmdkState :=
  { st31 with pos := 44, capacity := 16, granularity := 1, gd_offset := 4,
              gd_size := 1, used_sectors := some 7, gt_size := 4096 }

/-- `img3` after the two header-sector reservations, at the head of the
directory loop. -/
def st33 : VmdkState :=
  { st32 with blocks := (st32.blocks.set 0 (some (0, 0))).set 1 (some (0, 0)),
              gtes := 0, gts := 0, pos := 2052 }

/-- `img3` after the 4-sector footprint reservation of the table at sector 6. -/
def st34 : VmdkState :=
  { st33 with blocks := (((st33.blocks.set 6 (some (0, 0))).set 7 (some (0, 0))).set 8
                          (some (0, 0))).set 9 (some (0, 0)) }

/-- `img3` at the head of the grain-table loop. -/
def st35 : VmdkState := { st34 with pos := 19456, gts := 1 }

/-- `img3` after the single populated grain-table entry. -/
def st36 : VmdkState := { st35 with gtes := 1, blocks := st35.blocks.set 12 (some (0, 0)) }

theorem img3_zero_hi (o : Nat) (h : 3076 ≤ o) : img3 o = 0 := by
  unfold img3
  rw [if_pos h]

theorem img3_readU32_hi (o : Nat) (h : 3076 ≤ o) : readU32 img3 o = 0 := by
  unfold readU32 byteAt
  rw [img3_zero_hi o (by omega), img3_zero_hi (o + 1) (by omega),
     img3_zero_hi (o + 2) (by omega), img3_zero_hi (o + 3) (by omega)]
  decide

theorem img3b_readU32_hi (o : Nat) (h : 3076 ≤ o) : readU32 img3b o = 0 := by
  have hb : ∀ u, 3076 ≤ u → img3b u = img3 u := by
    intro u hu; unfold img3b; rw [if_neg (by omega)]
  unfold readU32 byteAt
  rw [hb o (by omega), hb (o + 1) (by omega), hb (o + 2) (by omega), hb (o + 3) (by omega),
     img3_zero_hi o (by omega), img3_zero_hi (o + 1) (by omega),
     img3_zero_hi (o + 2) (by omega), img3_zero_hi (o + 3) (by omega)]
  decide

/-- The final parser state of the run on `img3` (established below). -/
def img3final : VmdkState :=
  { filesize := 20480
    pos := 19456
    blocks := [some (0, 0), some (0, 0), none, none, none, none,
               some (0, 0), some (0, 0), some (0, 0), some (0, 0),
               none, none, some (0, 0), none, none, none,
               none, none, none, none, none, none, none, none,
               none, none, none, none, none, none, none, none,
               none, none, none, none, none, none, none, none]
    errors := []
    version := 3
    capacity := 16
    granularity := 1
    gd_offset := 4
    gd_size := 1
    gt_size := 4096
    used_sectors := some 7
    gtes := 1
    gts := 1
    used_blocks := 7 }

theorem run_img3 : vmdk_parse img3 20480 = Except.ok img3final := by
  have hmag : parse_magic img3 (initState 20480) = .ok st31 := by decide
  have hhdr : parse_header img3 st31 = .ok st32 := by decide
  have hr0 : reserve_block st32 0 0 0 =
      .ok { st32 with blocks := st32.blocks.set 0 (some (0, 0)) } := by decide
  have hr1 : reserve_block { st32 with blocks := st32.blocks.set 0 (some (0, 0)) } 1 0 0 =
      .ok { st32 with blocks := (st32.blocks.set 0 (some (0, 0))).set 1 (some (0, 0)) } := by
    decide
  have hrr : reserveRange st33 6 4 0 0 = .ok st34 := by decide
  have hrd : readU32 img3 (2048 + 0 * 4) = 6 := by decide
  have hrd2 : readU32 img3 (3072 + 0 * 4) = 12 := by decide
  have hent : gtEntry st35 0 0 12 3072 = .ok st36 := by decide
  have hzeros : gtLoop img3 0 3072 1 4095 st36 = .ok st36 :=
    gtLoop_zeros img3 0 3072 4095 1 st36 (fun j h1 h2 => img3_readU32_hi _ (by omega))
  have hgt : parse_gt img3 st34 0 6 = .ok st36 := by
    show gtLoop img3 0 3072 0 (4095 + 1) st35 = .ok st36
    rw [gtLoop_succ, hrd2, hent, exbind_ok]
    exact hzeros
  have hgde : gdEntry img3 st33 0 6 = .ok st36 := by
    unfold gdEntry
    rw [if_neg (by omega), hrr, exbind_ok]
    exact hgt
  have hpd : parse_gd img3 st32 = (reserve_block st32 0 0 0 >>= fun s1 =>
      reserve_block s1 1 0 0 >>= fun s2 =>
        if s2.gd_size = 0 ∨ s2.gd_offset * SECTOR_SIZE + s2.gd_size * 4 ≤ s2.filesize then
          gdLoop img3 (s2.gd_offset * SECTOR_SIZE) 0 s2.gd_size
            { s2 with gtes := 0, gts := 0,
                      pos := s2.gd_offset * SECTOR_SIZE + s2.gd_size * 4 }
        else .error .structError) := rfl
  have hgd : parse_gd img3 st32 = .ok st36 := by
    rw [hpd, hr0, exbind_ok]
    rw [hr1, exbind_ok]
    show gdLoop img3 2048 0 (0 + 1) st33 = .ok st36
    rw [gdLoop_succ, hrd, hgde, exbind_ok]
    exact gdLoop_zero img3 2048 1 st36
  have hchk : check_blocks st36 = .ok img3final := by decide
  have hvp : vmdk_parse img3 20480 = (parse_magic img3 (initState 20480) >>= fun s1 =>
      parse_header img3 s1 >>= fun s2 => parse_gd img3 s2 >>= fun s3 =>
        check_blocks s3) := rfl
  rw [hvp, hmag, exbind_ok]
  rw [hhdr, exbind_ok]
  rw [hgd, exbind_ok]
  exact hchk

/-- `img3b` after `parse_v3_header` (granularity 2). -/
def st3b2 : VmdkState :=
  { st31 with pos := 44, capacity := 16, granularity := 2, gd_offset := 4,
              gd_size := 1, used_sectors := some 7, gt_size := 4096 }

/-- `img3b` after the two header-sector reservations. -/
def st3b3 : VmdkState :=
  { st3b2 with blocks := (st3b2.blocks.set 0 (some (0, 0))).set 1 (some (0, 0)),
               gtes := 0, gts := 0, pos := 2052 }

/-- `img3b` after the 4-sector table footprint. -/
def st3b4 : VmdkState :=
  { st3b3 with blocks := (((st3b3.blocks.set 6 (some (0, 0))).set 7 (some (0, 0))).set 8
                           (some (0, 0))).set 9 (some (0, 0)) }

/-- `img3b` at the head of the grain-table loop. -/
def st3b5 : VmdkState := { st3b4 with pos := 19456, gts := 1 }

/-- `img3b` after the single populated entry (grain of 2 sectors). -/
def st3b6 : VmdkState :=
  { st3b5 with gtes := 1, blocks := (st3b5.blocks.set 12 (some (0, 0))).set 13 (some (0, 0)) }

/-- The final parser state of the run on `img3b` (established below): 8 claimed
sectors against `expect_used = 7`, hence one accounting-mismatch error. -/
def img3bfinal : VmdkState :=
  { st3b6 with used_blocks := 8, errors := [⟨19456, mismatchText 7 8⟩] }

theorem run_img3b : vmdk_parse img3b 20480 = Except.ok img3bfinal := by
  have hmag : parse_magic img3b (initState 20480) = .ok st31 := by decide
  have hhdr : parse_header img3b st31 = .ok st3b2 := by decide
  have hr0 : reserve_block st3b2 0 0 0 =
      .ok { st3b2 with blocks := st3b2.blocks.set 0 (some (0, 0)) } := by decide
  have hr1 : reserve_block { st3b2 with blocks := st3b2.blocks.set 0 (some (0, 0)) } 1 0 0 =
      .ok { st3b2 with blocks := (st3b2.blocks.set 0 (some (0, 0))).set 1 (some (0, 0)) } := by
    decide
  have hrr : reserveRange st3b3 6 4 0 0 = .ok st3b4 := by decide
  have hrd : readU32 img3b (2048 + 0 * 4) = 6 := by decide
  have hrd2 : readU32 img3b (3072 + 0 * 4) = 12 := by decide
  have hent : gtEntry st3b5 0 0 12 3072 = .ok st3b6 := by decide
  have hzeros : gtLoop img3b 0 3072 1 4095 st3b6 = .ok st3b6 :=
    gtLoop_zeros img3b 0 3072 4095 1 st3b6 (fun j h1 h2 => img3b_readU32_hi _ (by omega))
  have hgt : parse_gt img3b st3b4 0 6 = .ok st3b6 := by
    show gtLoop img3b 0 3072 0 (4095 + 1) st3b5 = .ok st3b6
    rw [gtLoop_succ, hrd2, hent, exbind_ok]
    exact hzeros
  have hgde : gdEntry img3b st3b3 0 6 = .ok st3b6 := by
    unfold gdEntry
    rw [if_neg (by omega), hrr, exbind_ok]
    exact hgt
  have hpd : parse_gd img3b st3b2 = (reserve_block st3b2 0 0 0 >>= fun s1 =>
      reserve_block s1 1 0 0 >>= fun s2 =>
        if s2.gd_size = 0 ∨ s2.gd_offset * SECTOR_SIZE + s2.gd_size * 4 ≤ s2.filesize then
          gdLoop img3b (s2.gd_offset * SECTOR_SIZE) 0 s2.gd_size
            { s2 with gtes := 0, gts := 0,
                      pos := s2.gd_offset * SECTOR_SIZE + s2.gd_size * 4 }
        else .error .structError) := rfl
  have hgd : parse_gd img3b st3b2 = .ok st3b6 := by
    rw [hpd, hr0, exbind_ok]
    rw [hr1, exbind_ok]
    show gdLoop img3b 2048 0 (0 + 1) st3b3 = .ok st3b6
    rw [gdLoop_succ, hrd, hgde, exbind_ok]
    exact gdLoop_zero img3b 2048 1 st3b6
  have hchk : check_blocks st3b6 = .ok img3bfinal := by decide
  have hvp : vmdk_parse img3b 20480 = (parse_magic img3b (initState 20480) >>= fun s1 =>
      parse_header img3b s1 >>= fun s2 => parse_gd img3b s2 >>= fun s3 =>
        check_blocks s3) := rfl
  rw [hvp, hmag, exbind_ok]
  rw [hhdr, exbind_ok]
  rw [hgd, exbind_ok]
  exact hchk

/-!  Behaviour of the float-division model `pyTrueDivInt`. -/

theorem rne_ge (p q : Nat) : p / q ≤ rne p q := by
  unfold rne
  split_ifs <;> omega

theorem rne_le (p q : Nat) : rne p q ≤ p / q + 1 := by
  unfold rne
  split_ifs <;> omega

theorem rne_eq_of_small_rem (p q : Nat) (h : 2 * (p % q) < q) : rne p q = p / q := by
  unfold rne
  rw [if_pos h]

/-- Within the 52-bit range the modelled Python `int((...)/(...))` computes the
exact floor quotient: correctly rounded double division cannot cross an
integer boundary there. -/
theorem pyTrueDivInt_eq_div (a b : Nat) (hb : 1 ≤ b) (hba : b ≤ a) (ha : a < 2 ^ 52) :
    pyTrueDivInt a b = a / b := by
  have ha0 : ¬ (a = 0) := by omega
  have hb0 : 0 < b := hb
  set k := natLog2 (a / b) with hkdef
  have hkeq : k = Nat.log2 (a / b) := natLog2_eq_log2 (a / b)
  have hq1 : 1 ≤ a / b := (Nat.one_le_div_iff hb0).mpr hba
  have hqlt : a / b < 2 ^ 52 := lt_of_le_of_lt (Nat.div_le_self a b) ha
  have hk51 : k ≤ 51 := by
    have hh := (Nat.log2_lt (by omega : a / b ≠ 0)).mpr hqlt
    omega
  have h2k : 2 ^ k ≤ a / b := by
    rw [hkeq]
    exact Nat.log2_self_le (by omega : a / b ≠ 0)
  have h2kb : 2 ^ k * b ≤ a := (Nat.le_div_iff_mul_le hb0).mp h2k
  have hblt : b < 2 ^ (52 - k) := by
    by_contra hcon
    push_neg at hcon
    have h1 : 2 ^ k * 2 ^ (52 - k) ≤ 2 ^ k * b := Nat.mul_le_mul_left _ hcon
    rw [← pow_add] at h1
    have h2 : k + (52 - k) = 52 := by omega
    rw [h2] at h1
    omega
  have hfl : floorLog2Q a b = (k : Int) := by
    unfold floorLog2Q
    rw [if_pos hba]
  have hneg : ¬ (0 ≤ floorLog2Q a b - 52) := by rw [hfl]; omega
  have htn : (52 - floorLog2Q a b).toNat = 52 - k := by rw [hfl]; omega
  unfold pyTrueDivInt
  rw [if_neg ha0, if_neg hneg, htn]
  set j := 52 - k with hjdef
  have hj1 : 1 ≤ j := by omega
  set p := a * 2 ^ j with hpdef
  set d := p / b with hddef
  set r := p % b with hrdef
  have hpd : b * d + r = p := Nat.div_add_mod p b
  have hrb : r < b := Nat.mod_lt p hb0
  have hd_ge : (a / b) * 2 ^ j ≤ d := by
    rw [hddef]
    apply (Nat.le_div_iff_mul_le hb0).mpr
    calc (a / b) * 2 ^ j * b = (a / b) * b * 2 ^ j := by ring
    _ ≤ a * 2 ^ j := Nat.mul_le_mul_right _ (Nat.div_mul_le_self a b)
  have ha1 : a + 1 ≤ (a / b + 1) * b := by
    have heq : b * (a / b) + a % b = a := Nat.div_add_mod a b
    have hmlt : a % b < b := Nat.mod_lt a hb0
    have hmb : (a / b + 1) * b = b * (a / b) + b := by ring
    omega
  have hd_lt : d < (a / b + 1) * 2 ^ j := by
    rw [hddef]
    rw [Nat.div_lt_iff_lt_mul hb0]
    have h2 : a < (a / b + 1) * b := by omega
    have h3 : a * 2 ^ j < ((a / b + 1) * b) * 2 ^ j :=
      mul_lt_mul_of_pos_right h2 (pow_pos (by norm_num) j)
    have h4 : ((a / b + 1) * b) * 2 ^ j = (a / b + 1) * 2 ^ j * b := by ring
    rw [← hpdef] at h3
    omega
  have hrne_ge : d ≤ rne p b := rne_ge p b
  have hrne_le : rne p b ≤ d + 1 := rne_le p b
  have hrne_lt : rne p b < (a / b + 1) * 2 ^ j := by
    rcases Nat.lt_or_ge (d + 1) ((a / b + 1) * 2 ^ j) with hcase | hcase
    · omega
    · have hdeq : d + 1 = (a / b + 1) * 2 ^ j := by omega
      have h2r : 2 * r < b := by
        have hC1 : b * (d + 1) = b * ((a / b + 1) * 2 ^ j) := by rw [hdeq]
        have hC2 : (a + 1) * 2 ^ j ≤ ((a / b + 1) * b) * 2 ^ j :=
          Nat.mul_le_mul_right _ ha1
        have hC3 : ((a / b + 1) * b) * 2 ^ j = b * ((a / b + 1) * 2 ^ j) := by ring
        have hC4 : (a + 1) * 2 ^ j = a * 2 ^ j + 2 ^ j := by ring
        have hC5 : b * (d + 1) = b * d + b := by ring
        rw [← hpdef] at hC4
        omega
      have hrne_eq : rne p b = d := rne_eq_of_small_rem p b h2r
      omega
  exact Nat.div_eq_of_lt_le (by omega) hrne_lt

theorem div_cancel_common_right (a b c : Nat) (hc : 0 < c) : a * c / (b * c) = a / b := by
  rw [Nat.mul_comm b c, ← Nat.div_div_eq_div_mul, Nat.mul_div_cancel _ hc]

/-- Dividing by a power of two only rescales the exponent of the double, so
the modelled `int(a / 2^t)` is the exact floor quotient for every `a < 2^53`
(where `a` itself is exactly representable); beyond that the rounding can
cross an integer boundary. -/
theorem pyTrueDivInt_pow2 (a t : Nat) (ht : 1 ≤ t) (ht52 : t ≤ 52) (ha : a < 2 ^ 53) :
    pyTrueDivInt a (2 ^ t) = a / 2 ^ t := by
  by_cases ha0 : a = 0
  · subst ha0
    show pyTrueDivInt 0 (2 ^ t) = 0 / 2 ^ t
    rw [Nat.zero_div]
    rfl
  have hbpos : 0 < 2 ^ t := pow_pos (by norm_num) t
  have hfl_le : floorLog2Q a (2 ^ t) ≤ 51 ∧ t ≤ (52 - floorLog2Q a (2 ^ t)).toNat := by
    unfold floorLog2Q
    by_cases hba : 2 ^ t ≤ a
    · rw [if_pos hba]
      have hk : natLog2 (a / 2 ^ t) = Nat.log2 (a / 2 ^ t) := natLog2_eq_log2 (a / 2 ^ t)
      have hq0 : a / 2 ^ t ≠ 0 := by
        have := (Nat.one_le_div_iff hbpos).mpr hba
        omega
      have hlt : a / 2 ^ t < 2 ^ (53 - t) := by
        rw [Nat.div_lt_iff_lt_mul hbpos]
        calc a < 2 ^ 53 := ha
        _ = 2 ^ (53 - t) * 2 ^ t := by rw [← pow_add]; congr 1; omega
      have hklt := (Nat.log2_lt hq0).mpr hlt
      constructor
      · omega
      · omega
    · rw [if_neg hba]
      constructor
      · omega
      · omega
  obtain ⟨hfl51, hJt⟩ := hfl_le
  have he : ¬ (0 ≤ floorLog2Q a (2 ^ t) - 52) := by omega
  unfold pyTrueDivInt
  rw [if_neg ha0, if_neg he]
  set J := (52 - floorLog2Q a (2 ^ t)).toNat with hJ
  have hJsplit : (2 : Nat) ^ J = 2 ^ (J - t) * 2 ^ t := by
    rw [← pow_add]
    congr 1
    omega
  have hr0 : (a * 2 ^ J) % 2 ^ t = 0 := by
    rw [hJsplit, ← Nat.mul_assoc]
    exact Nat.mul_mod_left _ _
  rw [rne_eq_of_small_rem _ _ (by rw [hr0]; omega)]
  have h1 : a * 2 ^ J / 2 ^ t = a * 2 ^ (J - t) := by
    rw [hJsplit, ← Nat.mul_assoc, Nat.mul_div_cancel _ hbpos]
  rw [h1, hJsplit, Nat.mul_comm (2 ^ (J - t)) (2 ^ t)]
  exact div_cancel_common_right a (2 ^ t) (2 ^ (J - t)) (pow_pos (by norm_num) _)

/-- `ceilDivNat` deserves its name: for positive `b` it is the least `k` with
`a ≤ k * b`. -/
theorem ceilDivNat_le_iff (a b k : Nat) (hb : 1 ≤ b) :
    ceilDivNat a b ≤ k ↔ a ≤ k * b := by
  unfold ceilDivNat
  rw [Nat.div_le_iff_le_mul_add_pred hb]
  have hcomm : b * k = k * b := Nat.mul_comm b k
  omega

/-!  More helper lemmas: ownership after `List.set`, accessors of `Evolves`,
case analysis of the header and check stages, and behaviour of reservation
ranges and sequences. -/

theorem getD_set_self (l : List (Option (Nat × Nat))) (i : Nat) (v : Option (Nat × Nat))
    (h : i < l.length) : (l.set i v).getD i none = v := by
  rw [List.getD_eq_get?, List.get?_set_eq_of_lt v h]
  rfl

theorem getD_set_other (l : List (Option (Nat × Nat))) (i j : Nat) (v : Option (Nat × Nat))
    (h : i ≠ j) : (l.set i v).getD j none = l.getD j none := by
  rw [List.getD_eq_get?, List.getD_eq_get?, List.get?_set_ne v l h]

theorem ownerAt_none_get (s : VmdkState) (idx : Nat) (h : idx < s.blocks.length)
    (hp : ownerAt s idx = none) : s.blocks.get ⟨idx, h⟩ = none := by
  rw [ownerAt_get?, List.get?_eq_get h] at hp
  simpa using hp

theorem Evolves.lenEq {s s' : VmdkState} (h : Evolves s s') :
    s'.blocks.length = s.blocks.length := h.2.2.2.2.2.2.2.2.1

theorem Evolves.usedEq {s s' : VmdkState} (h : Evolves s s') :
    s'.used_sectors = s.used_sectors := h.2.2.2.2.2.2.2.1

theorem Evolves.errExt {s s' : VmdkState} (h : Evolves s s') :
    ∃ tail, s'.errors = s.errors ++ tail := h.2.2.2.2.2.2.2.2.2.1

theorem Evolves.keepOwner {s s' : VmdkState} (h : Evolves s s') (i : Nat) (p : Nat × Nat)
    (hp : ownerAt s i = some p) : ownerAt s' i = some p :=
  h.2.2.2.2.2.2.2.2.2.2 i p hp

theorem reserveSeq_cons (s : VmdkState) (c : Nat × Nat × Nat) (rest : List (Nat × Nat × Nat)) :
    reserveSeq s (c :: rest) =
      reserve_block s c.1 c.2.1 c.2.2 >>= fun s' => reserveSeq s' rest := rfl

/-- A claimed sector keeps its owner across any sequence of further
`reserve_block` calls that completes without an exception. -/
theorem reserveSeq_keeps (idx : Nat) (p : Nat × Nat) :
    ∀ (l : List (Nat × Nat × Nat)) (s s' : VmdkState),
      reserveSeq s l = .ok s' → ownerAt s idx = some p → ownerAt s' idx = some p := by
  intro l
  induction l with
  | nil => intro s s' h hp; cases h; exact hp
  | cons c rest ih =>
    intro s s' h hp
    rw [reserveSeq_cons] at h
    cases hmid : reserve_block s c.1 c.2.1 c.2.2 with
    | error e => rw [hmid, exbind_err] at h; cases h
    | ok t =>
      rw [hmid, exbind_ok] at h
      exact ih t s' h (reserve_block_keeps s c.1 c.2.1 c.2.2 t hmid idx p hp)

/-- Reserving `n` in-range, unclaimed sectors claims exactly those sectors for
`(gd, gt)`, changes nothing else, and reports no error. -/
theorem reserveRange_fresh (gd gt : Nat) :
    ∀ (n start : Nat) (s : VmdkState),
      (∀ i, i < n → start + i < s.blocks.length) →
      (∀ i, i < n → ownerAt s (start + i) = none) →
      ∃ s', reserveRange s start n gd gt = .ok s' ∧
        s' = { s with blocks := s'.blocks } ∧
        s'.blocks.length = s.blocks.length ∧
        (∀ i, i < n → ownerAt s' (start + i) = some (gd, gt)) ∧
        (∀ j, (∀ i, i < n → j ≠ start + i) → ownerAt s' j = ownerAt s j) := by
  intro n
  induction n with
  | zero =>
    intro start s _ _
    exact ⟨s, rfl, rfl, rfl, fun i hi => absurd hi (by omega), fun j _ => rfl⟩
  | succ m ih =>
    intro start s hin hfresh
    have h0 : start < s.blocks.length := by have := hin 0 (by omega); omega
    have hb0 : s.blocks.get ⟨start, h0⟩ = none := by
      apply ownerAt_none_get
      have := hfresh 0 (by omega)
      simpa using this
    have hstep : reserve_block s start gd gt =
        .ok { s with blocks := s.blocks.set start (some (gd, gt)) } :=
      reserve_block_fresh s start gd gt h0 hb0
    have hlen1 : ({ s with blocks := s.blocks.set start (some (gd, gt)) } :
        VmdkState).blocks.length = s.blocks.length := by simp
    have hin1 : ∀ i, i < m →
        start + 1 + i < ({ s with blocks := s.blocks.set start (some (gd, gt)) } :
          VmdkState).blocks.length := by
      intro i hi
      rw [hlen1]
      have := hin (i + 1) (by omega)
      omega
    have hfresh1 : ∀ i, i < m →
        ownerAt { s with blocks := s.blocks.set start (some (gd, gt)) } (start + 1 + i) = none := by
      intro i hi
      have hne : start ≠ start + 1 + i := by omega
      have heq : ownerAt { s with blocks := s.blocks.set start (some (gd, gt)) } (start + 1 + i)
          = ownerAt s (start + 1 + i) := getD_set_other s.blocks start (start + 1 + i) _ hne
      rw [heq]
      have h2 := hfresh (i + 1) (by omega)
      have h3 : start + (i + 1) = start + 1 + i := by omega
      rw [h3] at h2
      exact h2
    obtain ⟨s', hrun, hsame, hlen, hcov, hfr⟩ :=
      ih (start + 1) { s with blocks := s.blocks.set start (some (gd, gt)) } hin1 hfresh1
    refine ⟨s', ?_, ?_, ?_, ?_, ?_⟩
    · rw [reserveRange_succ, hstep, exbind_ok]
      exact hrun
    · exact hsame
    · rw [hlen, hlen1]
    · intro i hi
      by_cases hi0 : i = 0
      · subst hi0
        have h1 : ownerAt s' start =
            ownerAt { s with blocks := s.blocks.set start (some (gd, gt)) } start :=
          hfr start (fun i hi => by omega)
        have h2 : ownerAt { s with blocks := s.blocks.set start (some (gd, gt)) } start
            = some (gd, gt) := getD_set_self s.blocks start _ h0
        exact h1.trans h2
      · have hi1 : i - 1 < m := by omega
        have h2 := hcov (i - 1) hi1
        have heq : start + 1 + (i - 1) = start + i := by omega
        rw [heq] at h2
        exact h2
    · intro j hj
      have h1 : ownerAt s' j =
          ownerAt { s with blocks := s.blocks.set start (some (gd, gt)) } j :=
        hfr j (fun i hi => by have := hj (i + 1) (by omega); omega)
      rw [h1]
      have hne : start ≠ j := by have := hj 0 (by omega); omega
      exact getD_set_other s.blocks start j _ hne

/-- Reserving `n` in-range sectors always completes (claimed targets only add
conflict messages) and leaves every target sector claimed. -/
theorem reserveRange_covers (gd gt : Nat) :
    ∀ (n start : Nat) (s : VmdkState),
      (∀ i, i < n → start + i < s.blocks.length) →
      ∃ s', reserveRange s start n gd gt = .ok s' ∧ Evolves s s' ∧
        (∀ i, i < n → (ownerAt s' (start + i)).isSome = true) := by
  intro n
  induction n with
  | zero =>
    intro start s _
    exact ⟨s, rfl, evolves_refl s, fun i hi => absurd hi (by omega)⟩
  | succ m ih =>
    intro start s hin
    have h0 : start < s.blocks.length := by have := hin 0 (by omega); omega
    have hstep : ∃ s1, reserve_block s start gd gt = .ok s1 ∧
        (∃ q, ownerAt s1 start = some q) ∧ Evolves s s1 := by
      cases hb : s.blocks.get ⟨start, h0⟩ with
      | some p =>
        refine ⟨_, reserve_block_conflict s start gd gt p h0 hb, ⟨p, ?_⟩,
          reserve_block_evolves _ _ _ _ _ (reserve_block_conflict s start gd gt p h0 hb)⟩
        rw [ownerAt_get?, List.get?_eq_get h0]
        show ((some (s.blocks.get ⟨start, h0⟩)).getD none) = some p
        rw [hb]
        rfl
      | none =>
        refine ⟨_, reserve_block_fresh s start gd gt h0 hb, ⟨(gd, gt), ?_⟩,
          reserve_block_evolves _ _ _ _ _ (reserve_block_fresh s start gd gt h0 hb)⟩
        exact getD_set_self s.blocks start _ h0
    obtain ⟨s1, hstep, ⟨q, hq⟩, hev1⟩ := hstep
    have hin1 : ∀ i, i < m → start + 1 + i < s1.blocks.length := by
      intro i hi
      rw [hev1.lenEq]
      have := hin (i + 1) (by omega)
      omega
    obtain ⟨s', hrun, hev2, hcov⟩ := ih (start + 1) s1 hin1
    refine ⟨s', ?_, evolves_trans hev1 hev2, ?_⟩
    · rw [reserveRange_succ, hstep, exbind_ok]
      exact hrun
    · intro i hi
      by_cases hi0 : i = 0
      · subst hi0
        have h2 := hev2.keepOwner start q hq
        show (ownerAt s' (start + 0)).isSome = true
        have h3 : start + 0 = start := rfl
        rw [h3, h2]
        rfl
      · have hi1 : i - 1 < m := by omega
        have h2 := hcov (i - 1) hi1
        have heq : start + 1 + (i - 1) = start + i := by omega
        rw [heq] at h2
        exact h2

theorem vmdk_parse_unfold (img : Nat → Nat) (fs : Nat) :
    vmdk_parse img fs =
      parse_magic img (initState fs) >>= fun s1 =>
        parse_header img s1 >>= fun s2 =>
          parse_gd img s2 >>= fun s3 => check_blocks s3 := rfl

/-- `parse_magic` leaves the map and `used_sectors` alone, and its version-3
outcome certifies the `COWD` signature byte. -/
theorem parse_magic_ok_cases (img : Nat → Nat) (s s' : VmdkState)
    (h : parse_magic img s = .ok s') :
    s'.blocks = s.blocks ∧ s'.used_sectors = s.used_sectors ∧
      ((byteAt img s.pos = 67 ∧ s'.version = 3) ∨ s'.version = 4) := by
  unfold parse_magic at h
  split_ifs at h with hc1 hc2
  · cases h
    exact ⟨rfl, rfl, Or.inl ⟨hc1.1, rfl⟩⟩
  · cases h
    exact ⟨rfl, rfl, Or.inr rfl⟩

/-- A successful `parse_header` leaves the map alone; on the version-4 path it
also leaves `used_sectors` alone (the version-4 record does not contain one). -/
theorem parse_header_ok (img : Nat → Nat) (s s' : VmdkState)
    (h : parse_header img s = .ok s') :
    s'.blocks = s.blocks ∧ s'.filesize = s.filesize ∧
      (s.version = 4 → s'.used_sectors = s.used_sectors) := by
  unfold parse_header at h
  split_ifs at h with h4 h3
  · unfold parse_v4_header at h
    split_ifs at h with hz
    cases h
    exact ⟨rfl, rfl, fun _ => rfl⟩
  · cases h
    exact ⟨rfl, rfl, fun hv4 => absurd hv4 h4⟩

theorem checkUsedHdr_ok (s s' : VmdkState) (h : checkUsedHdr s = .ok s') :
    s'.blocks = s.blocks := by
  unfold checkUsedHdr at h
  cases hu : s.used_sectors with
  | none => rw [hu] at h; cases h
  | some us =>
    rw [hu] at h
    simp only [] at h
    cases h
    split_ifs <;> rfl

theorem check_blocks_ok_blocks (s s' : VmdkState) (h : check_blocks s = .ok s') :
    s'.blocks = s.blocks := by
  unfold check_blocks at h
  have hb := checkUsedHdr_ok _ s' h
  rw [hb]
  split_ifs <;> rfl

/-- When `used_sectors` was never assigned, `check_blocks` raises
`AttributeError`. -/
theorem check_blocks_err_of_none (s : VmdkState) (h : s.used_sectors = none) :
    check_blocks s = .error .attributeError := by
  unfold check_blocks checkUsedHdr
  split_ifs with hc
  · simp [h]
  · simp [h]

/-!  Remaining concrete inputs for witnesses. -/

/-- An all-zero byte source. -/
def imgZero : Nat → Nat := fun _ => 0

/-- A 16-sector parser state with a 2-entry grain-table size (as a version-4
header can prescribe), granularity 1, capacity 50, nothing claimed. -/
def s4w : VmdkState := { initState 8192 with gt_size := 2, granularity := 1, capacity := 50 }

/-- A version-4 pre-header state (after the magic) for `img4w`. -/
def s4pre : VmdkState := { initState 16384 with pos := 4, version := 4 }

/-- The state `parse_v4_header` produces from `img4w` and `s4pre`. -/
def s4post : VmdkState :=
  { s4pre with pos := 79, capacity := 16, granularity := 1, gt_size := 16,
               gd_offset := 4, gd_size := 1 }

/-- The state `parse_v4_header` produces from `img8` (capacity `2^53 + 1`) and
the post-magic state of a zero-length file: `gd_size` comes out as `2^53`. -/
def st8 : VmdkState :=
  { initState 0 with pos := 79, capacity := 9007199254740993, granularity := 1,
                     gt_size := 1, gd_offset := 4, gd_size := 9007199254740992 }

theorem getD_replicate_none (n x : Nat) :
    (List.replicate n (none : Option (Nat × Nat))).getD x none = none := by
  rw [List.getD_eq_get?]
  cases h : (List.replicate n (none : Option (Nat × Nat))).get? x with
  | none => rfl
  | some v =>
    rw [List.eq_of_mem_replicate (List.get?_mem h)]
    rfl

/-!  ## Claim theorems -/

/-- C1 (amended claim): for the synthetic two-level image `img3` — directory
size 1, one populated slot, a table with exactly one populated in-bounds entry,
and granularity 1 — the run completes with `2 + 4 + granularity` sectors
claimed, `live_entry_count = 1` (`gtes`), `table_visit_count = 1` (`gts`) and
zero errors, and `expected_used = gtes + gts*4 + 2` equals the claimed-sector
count.  The granularity-1 restriction is forced by `C1_counterexample`:
`expect_used` counts one sector per live entry while a live entry claims
`granularity` sectors. -/
theorem C1_amended :
    vmdk_parse img3 20480 = Except.ok img3final ∧
    img3final.granularity = 1 ∧
    countSome img3final.blocks = 2 + 4 + img3final.granularity ∧
    img3final.gtes = 1 ∧ img3final.gts = 1 ∧ img3final.errors = [] ∧
    expectUsed img3final = countSome img3final.blocks :=
  ⟨run_img3, by decide, by decide, by decide, by decide, by decide, by decide⟩

/-- C1 (counterexample): `img3b` is the same fixture with granularity 2 — no
overlap, no out-of-range reference, a correct declared count, i.e. no
intentional corruption — yet the run ends with 8 sectors claimed against
`expected_used = 7`: the accounting identity fails and one error is reported
instead of zero. -/
theorem C1_counterexample :
    vmdk_parse img3b 20480 = Except.ok img3bfinal ∧
    img3bfinal.granularity = 2 ∧
    img3bfinal.gtes = 1 ∧ img3bfinal.gts = 1 ∧
    countSome img3bfinal.blocks = 2 + 4 + img3bfinal.granularity ∧
    expectUsed img3bfinal ≠ countSome img3bfinal.blocks ∧
    img3bfinal.errors ≠ [] :=
  ⟨run_img3b, by decide, by decide, by decide, by decide, by decide, by decide⟩

/-- C2 (counterexample): a version-4 image whose single grain-table entry
(5000) is far outside the 32-sector allocation map.  The claim says the
reservation fails with a *reported* `BoundsError`, is skipped, and traversal
continues to completion; instead the whole run aborts with an uncaught
`IndexError` and no error list is ever surfaced. -/
theorem C2_counterexample : vmdk_parse img_oob 16384 = Except.error PyErr.indexError := by
  decide

/-- C2 (amended claim): a reservation whose sector index falls outside the
allocation map raises an `IndexError` (`self.blocks[idx]` with no bounds
check), which aborts the traversal; no `BoundsError` record is appended and
the reservation is not skipped-and-continued. -/
theorem C2_amended (s : VmdkState) (idx gd gt : Nat) (h : s.blocks.length ≤ idx) :
    reserve_block s idx gd gt = Except.error PyErr.indexError := by
  unfold reserve_block
  rw [dif_neg (by omega)]

/-- C2 witness: the amended claim at a concrete out-of-range index. -/
theorem C2_amended_witness :
    (initState 1024).blocks.length ≤ 5 ∧
    reserve_block (initState 1024) 5 0 0 = Except.error PyErr.indexError :=
  ⟨by decide, C2_amended (initState 1024) 5 0 0 (by decide)⟩

/-- C3: the claim is right about the intent (the `used_sectors != None` guard
exists precisely to skip the declared-count comparison when no declared count
exists), but the code never initialises `used_sectors` on the version-4 path,
so *no* version-4 (`KDMV`) input ever completes the run: when the traversal
itself succeeds, `check_blocks` raises `AttributeError` before the final
summary. -/
theorem C3_v4_never_completes (img : Nat → Nat) (fs : Nat) (hK : isKDMV img) :
    completed (vmdk_parse img fs) = false := by
  cases hres : vmdk_parse img fs with
  | error e => rfl
  | ok sfin =>
    exfalso
    rw [vmdk_parse_unfold] at hres
    cases h1 : parse_magic img (initState fs) with
    | error e => rw [h1, exbind_err] at hres; cases hres
    | ok s1 =>
      simp only [h1, exbind_ok] at hres
      obtain ⟨hbl1, hus1, hver⟩ := parse_magic_ok_cases img (initState fs) s1 h1
      have hver4 : s1.version = 4 := by
        rcases hver with ⟨hc, -⟩ | hv
        · have hc0 : byteAt img 0 = 67 := hc
          rw [hK.1] at hc0
          exact absurd hc0 (by norm_num)
        · exact hv
      have hus1n : s1.used_sectors = none := by rw [hus1]; rfl
      cases h2 : parse_header img s1 with
      | error e => rw [h2, exbind_err] at hres; cases hres
      | ok s2 =>
        simp only [h2, exbind_ok] at hres
        have hus2 : s2.used_sectors = none := by
          rw [(parse_header_ok img s1 s2 h2).2.2 hver4, hus1n]
        cases h3 : parse_gd img s2 with
        | error e => rw [h3, exbind_err] at hres; cases hres
        | ok s3 =>
          simp only [h3, exbind_ok] at hres
          have hus3 : s3.used_sectors = none := by
            rw [(parse_gd_evolves img s2 s3 h3).usedEq, hus2]
          rw [check_blocks_err_of_none s3 hus3] at hres
          cases hres

/-- C3 witness: a concrete `KDMV` input on which the run indeed fails. -/
theorem C3_witness :
    isKDMV img4min ∧ completed (vmdk_parse img4min 2048) = false :=
  ⟨by decide, C3_v4_never_completes img4min 2048 (by decide)⟩

/-- C4 (counterexample): on `img3` (version 3, so `gt_size = 4096`) the claim's
`K = 4096 × 4 / 512 = 32` sectors per grain table, but the walker reserves only
the fixed 4 sectors `[6, 10)`: sector 10 stays unclaimed while `K ≠ 4`. -/
theorem C4_counterexample :
    vmdk_parse img3 20480 = Except.ok img3final ∧
    img3final.gt_size * 4 / SECTOR_SIZE = 32 ∧
    ownerAt img3final 6 = some (0, 0) ∧ ownerAt img3final 7 = some (0, 0) ∧
    ownerAt img3final 8 = some (0, 0) ∧ ownerAt img3final 9 = some (0, 0) ∧
    ownerAt img3final 10 = none ∧ (32 : Nat) ≠ 4 :=
  ⟨run_img3, by decide, by decide, by decide, by decide, by decide, by decide, by decide⟩

/-- C4 (amended claim): for every non-zero grain directory entry the walker
reserves exactly the 4 consecutive sectors `[gde, gde+4)` for the owner
`(d, 0)` — a fixed 4-sector footprint independent of the table size.  Stated
for a directory step whose footprint sectors are in range and unclaimed,
whose table read stays inside the file (otherwise the source raises
`struct.error`), and whose table decodes to all-zero entries, so that the
table walk contributes nothing: the entry's reservations are exactly those 4
sectors, with no error. -/
theorem C4_amended (img : Nat → Nat) (s : VmdkState) (ctr gde : Nat)
    (h0 : gde ≠ 0)
    (hread : s.gt_size = 0 ∨ gde * SECTOR_SIZE + s.gt_size * 4 ≤ s.filesize)
    (hin : ∀ i, i < 4 → gde + i < s.blocks.length)
    (hfresh : ∀ i, i < 4 → ownerAt s (gde + i) = none)
    (hzero : ∀ t, t < s.gt_size → readU32 img (gde * SECTOR_SIZE + t * 4) = 0) :
    ∃ s', gdEntry img s ctr gde = .ok s' ∧ s'.errors = s.errors ∧
      (∀ i, i < 4 → ownerAt s' (gde + i) = some (ctr, 0)) ∧
      (∀ j, (∀ i, i < 4 → j ≠ gde + i) → ownerAt s' j = ownerAt s j) := by
  obtain ⟨sF, hrun, hsame, hlen, hcov, hfr⟩ := reserveRange_fresh ctr 0 4 gde s hin hfresh
  have hgtsz : sF.gt_size = s.gt_size := (congrArg VmdkState.gt_size hsame).trans rfl
  have hfs : sF.filesize = s.filesize := (congrArg VmdkState.filesize hsame).trans rfl
  have hgt : parse_gt img sF ctr gde =
      .ok { sF with pos := gde * SECTOR_SIZE + sF.gt_size * 4, gts := sF.gts + 1 } := by
    have hcond : sF.gt_size = 0 ∨ gde * SECTOR_SIZE + sF.gt_size * 4 ≤ sF.filesize := by
      rw [hgtsz, hfs]
      exact hread
    unfold parse_gt
    rw [if_pos hcond]
    apply gtLoop_zeros
    intro j hj1 hj2
    exact hzero j (by omega)
  refine ⟨{ sF with pos := gde * SECTOR_SIZE + sF.gt_size * 4, gts := sF.gts + 1 },
    ?_, ?_, ?_, ?_⟩
  · unfold gdEntry
    rw [if_neg h0, hrun, exbind_ok]
    exact hgt
  · exact (congrArg VmdkState.errors hsame).trans rfl
  · intro i hi
    exact hcov i hi
  · intro j hj
    exact hfr j hj

/-- C4 witness: the amended claim at a concrete directory entry. -/
theorem C4_amended_witness :
    ∃ s', gdEntry imgZero s4w 0 6 = .ok s' ∧ s'.errors = s4w.errors ∧
      (∀ i, i < 4 → ownerAt s' (6 + i) = some (0, 0)) ∧
      (∀ j, (∀ i, i < 4 → j ≠ 6 + i) → ownerAt s' j = ownerAt s4w j) :=
  C4_amended imgZero s4w 0 6 (by decide) (by decide)
    (fun i hi => by
      have h2 : s4w.blocks.length = 16 := by decide
      omega)
    (fun i hi => getD_replicate_none _ _)
    (fun t ht => rfl)

/-- C5 (counterexample): two different new claimants of the same claimed
sector produce exactly the same result, message included — the one appended
message names the sector and the *existing* owner `(1, 2)` only — so the
conflict message cannot identify the new conflicting owner. -/
theorem C5_counterexample :
    reserve_block s5 1 5 7 = reserve_block s5 1 9 3 ∧
      reserve_block s5 1 5 7 =
        .ok { s5 with errors := s5.errors ++ [⟨s5.pos, conflictText 1 1 2⟩] } ∧
      ((5, 7) : Nat × Nat) ≠ (9, 3) :=
  ⟨by decide, by decide, by decide⟩

/-- C5 (amended claim): reserving an already-claimed sector appends exactly one
conflict message, which identifies the sector and the *existing* owner only
(the new claimant does not appear in it), and the record keeps its original
owner: the state is unchanged except for that one appended message. -/
theorem C5_amended (s : VmdkState) (idx gd gt : Nat) (p : Nat × Nat)
    (hp : ownerAt s idx = some p) :
    reserve_block s idx gd gt =
      .ok { s with errors := s.errors ++ [⟨s.pos, conflictText idx p.1 p.2⟩] } := by
  obtain ⟨h, hg⟩ := ownerAt_some_get s idx p hp
  exact reserve_block_conflict s idx gd gt p h hg

/-- C5 witness: the amended claim at a concrete conflicting reservation. -/
theorem C5_amended_witness :
    reserve_block s5 1 8 9 =
      .ok { s5 with errors := s5.errors ++ [⟨s5.pos, conflictText 1 1 2⟩] } :=
  C5_amended s5 1 8 9 (1, 2) (by decide)

/-- C6 (counterexample): the entry value 5 equals the capacity of `s6`, so it
lies outside `[0, capacity)`, yet the code (which tests `gte > capacity`)
reports no out-of-bounds error; the reservation pass still runs (sector 5 is
claimed) and the walk is not halted. -/
theorem C6_counterexample :
    (gtEntry s6 0 0 5 3072).map (fun s => (s.errors.length, ownerAt s 5)) =
      Except.ok (0, some (0, 0)) ∧ s6.capacity ≤ 5 :=
  ⟨by decide, by decide⟩

/-- C6 (amended claim): for every non-zero grain-table entry whose value
strictly exceeds the capacity (`gte > capacity` — not "outside
`[0, capacity)`": the boundary value `gte = capacity` passes silently), an
out-of-bounds error is reported at the byte offset of that entry and the
reservation pass is still attempted; when the reserved indices fall inside the
allocation map the walk is not halted and every target sector ends up
claimed. -/
theorem C6_amended (s : VmdkState) (gd ctr gte tableOff : Nat)
    (h0 : gte ≠ 0) (hoob : s.capacity < gte)
    (hin : ∀ i, i < s.granularity → gte + i < s.blocks.length) :
    ∃ s', gtEntry s gd ctr gte tableOff = .ok s' ∧
      (∃ tail, s'.errors = s.errors ++ ⟨tableOff + ctr * 4, oobText gte⟩ :: tail) ∧
      (∀ i, i < s.granularity → (ownerAt s' (gte + i)).isSome = true) := by
  obtain ⟨s', hrun, hev, hcov⟩ :=
    reserveRange_covers gd ctr s.granularity gte
      { s with gtes := s.gtes + 1, errors := s.errors ++ [⟨tableOff + ctr * 4, oobText gte⟩] }
      (fun i hi => hin i hi)
  refine ⟨s', ?_, ?_, fun i hi => hcov i hi⟩
  · unfold gtEntry
    rw [if_neg h0, if_pos hoob]
    exact hrun
  · obtain ⟨tail, htail⟩ := hev.errExt
    refine ⟨tail, ?_⟩
    rw [htail]
    show (s.errors ++ [⟨tableOff + ctr * 4, oobText gte⟩]) ++ tail = _
    simp

/-- C6 witness: the amended claim at a concrete out-of-bounds entry. -/
theorem C6_amended_witness :
    ∃ s', gtEntry s6 0 0 7 3072 = .ok s' ∧
      (∃ tail, s'.errors = s6.errors ++ ⟨3072 + 0 * 4, oobText 7⟩ :: tail) ∧
      (∀ i, i < s6.granularity → (ownerAt s' (7 + i)).isSome = true) :=
  C6_amended s6 0 0 7 3072 (by decide) (by decide)
    (fun i hi => by
      have h1 : s6.granularity = 1 := rfl
      have h2 : s6.blocks.length = 16 := by decide
      omega)

/-- C7 (counterexample): the run on `img3` (byte length 20480) decodes
capacity 16 but its allocation map has `int(filesize / 512) = 40` records —
one per sector of the *file*, not one per sector of `[0, capacity)`. -/
theorem C7_counterexample :
    (vmdk_parse img3 20480).map (fun s => (s.blocks.length, s.capacity)) =
      Except.ok (40, 16) ∧ (40 : Nat) ≠ 16 := by
  constructor
  · rw [run_img3]
    decide
  · decide

/-- C7 (amended claim): the allocation map is allocated once at parse start
with exactly one owner-record per sector unit of the *input file* — its
length is `int(filesize / 512)`, computed with Python float true division
(`pyTrueDivInt`), which agrees with the floor quotient `filesize / 512` for
every file size below `2^53` bytes — and is never resized: any completed run
ends with a map of that same length. -/
theorem C7_amended (img : Nat → Nat) (fs : Nat) (s' : VmdkState)
    (h : vmdk_parse img fs = .ok s') :
    s'.blocks.length = pyTrueDivInt fs SECTOR_SIZE ∧
      (fs < 2 ^ 53 → s'.blocks.length = fs / SECTOR_SIZE) := by
  have hlen : s'.blocks.length = pyTrueDivInt fs SECTOR_SIZE := by
    rw [vmdk_parse_unfold] at h
    cases h1 : parse_magic img (initState fs) with
    | error e => rw [h1, exbind_err] at h; cases h
    | ok s1 =>
      simp only [h1, exbind_ok] at h
      cases h2 : parse_header img s1 with
      | error e => rw [h2, exbind_err] at h; cases h
      | ok s2 =>
        simp only [h2, exbind_ok] at h
        cases h3 : parse_gd img s2 with
        | error e => rw [h3, exbind_err] at h; cases h
        | ok s3 =>
          simp only [h3, exbind_ok] at h
          rw [check_blocks_ok_blocks s3 s' h, (parse_gd_evolves img s2 s3 h3).lenEq,
             (parse_header_ok img s1 s2 h2).1, (parse_magic_ok_cases img (initState fs) s1 h1).1]
          simp [initState]
  refine ⟨hlen, fun hfs => ?_⟩
  rw [hlen, show SECTOR_SIZE = 2 ^ 9 from rfl]
  exact pyTrueDivInt_pow2 fs 9 (by omega) (by omega) hfs

/-- C7 witness: the amended claim on the completed run on `img3`. -/
theorem C7_amended_witness :
    img3final.blocks.length = pyTrueDivInt 20480 SECTOR_SIZE ∧
      (20480 < 2 ^ 53 → img3final.blocks.length = 20480 / SECTOR_SIZE) :=
  C7_amended img3 20480 img3final run_img3

/-- C8 (counterexample): for the decoded fields capacity `2^53 + 1`,
`gt_size = 1`, granularity 1 (all valid unsigned values of the version-4
record), the header decoder computes `gd_size = 2^53`, but the exact
`ceil(capacity / (leaf_size × granularity)) = 2^53 + 1`: the float true
division rounds `2^53 + 1` to `2^53` before `int()` truncates, so the count is
not computed exactly. -/
theorem C8_counterexample :
    parse_v4_header img8 { initState 0 with pos := 4 } = Except.ok st8 ∧
    st8.capacity = 9007199254740993 ∧ st8.gt_size * st8.granularity = 1 ∧
    st8.gd_size = 9007199254740992 ∧
    st8.gd_size ≠ ceilDivNat st8.capacity (st8.gt_size * st8.granularity) :=
  ⟨by decide, by decide, by decide, by decide, by decide⟩

/-- C8 (amended claim): the version-4 directory entry count is derived, not
stored, as `int((capacity + l1 - 1) / l1)` with `l1 = gt_size × granularity`,
evaluated in double-precision float division; whenever `capacity ≥ 1` and
`capacity + l1 - 1 < 2^52` this equals the exact
`ceil(capacity / (leaf_size × granularity))`. -/
theorem C8_amended (img : Nat → Nat) (s s' : VmdkState)
    (h : parse_v4_header img s = .ok s')
    (hc : 1 ≤ s'.capacity)
    (hsm : s'.capacity + s'.gt_size * s'.granularity - 1 < 2 ^ 52) :
    s'.gd_size = ceilDivNat s'.capacity (s'.gt_size * s'.granularity) := by
  unfold parse_v4_header at h
  split_ifs at h with hz
  cases h
  have hc' : 1 ≤ readU64 img (s.pos + 8) := hc
  have hz' : ¬(readU32 img (s.pos + 40) * readU64 img (s.pos + 16) = 0) := hz
  have hsm' : readU64 img (s.pos + 8) +
      readU32 img (s.pos + 40) * readU64 img (s.pos + 16) - 1 < 2 ^ 52 := hsm
  show pyTrueDivInt
      (readU64 img (s.pos + 8) + readU32 img (s.pos + 40) * readU64 img (s.pos + 16) - 1)
      (readU32 img (s.pos + 40) * readU64 img (s.pos + 16)) = _
  rw [pyTrueDivInt_eq_div _ _ (by omega) (by omega) (by omega)]
  rfl

/-- C8 witness: the amended claim on a concrete version-4 header. -/
theorem C8_amended_witness :
    s4post.gd_size = ceilDivNat s4post.capacity (s4post.gt_size * s4post.granularity) :=
  C8_amended img4w s4pre s4post (by decide) (by decide) (by decide)

/-- C9: once a sector record is claimed its owner never changes: any single
later reservation of the same sector returns the state unchanged except for
exactly one appended conflict message, and after any completed sequence of
further reservations, in any order, the sector's recorded owner is still the
first claimant. -/
theorem C9_first_claim_wins (s : VmdkState) (idx : Nat) (p : Nat × Nat)
    (hp : ownerAt s idx = some p) :
    (∀ gd gt, reserve_block s idx gd gt =
        .ok { s with errors := s.errors ++ [⟨s.pos, conflictText idx p.1 p.2⟩] }) ∧
    (∀ l s', reserveSeq s l = .ok s' → ownerAt s' idx = some p) := by
  obtain ⟨h, hg⟩ := ownerAt_some_get s idx p hp
  constructor
  · intro gd gt
    exact reserve_block_conflict s idx gd gt p h hg
  · intro l s' hrun
    exact reserveSeq_keeps idx p l s s' hrun hp

/-- C9 witness: the claim at a concrete already-claimed sector. -/
theorem C9_witness :
    reserve_block s5 1 4 6 =
      .ok { s5 with errors := s5.errors ++ [⟨s5.pos, conflictText 1 1 2⟩] } :=
  (C9_first_claim_wins s5 1 (1, 2) (by decide)).1 4 6

/-- C10: one `reserve_block` call with a valid index succeeds, leaves every
record other than the target unchanged, and appends at most one error —
exactly one when the target was already claimed, zero otherwise. -/
theorem C10_frame (s : VmdkState) (idx gd gt : Nat) (h : idx < s.blocks.length) :
    ∃ s', reserve_block s idx gd gt = .ok s' ∧
      (∀ j, j ≠ idx → ownerAt s' j = ownerAt s j) ∧
      ∃ tail, s'.errors = s.errors ++ tail ∧ tail.length ≤ 1 ∧
        (tail.length = 1 ↔ (ownerAt s idx).isSome = true) := by
  cases hb : s.blocks.get ⟨idx, h⟩ with
  | some p =>
    have hown : ownerAt s idx = some p := by
      rw [ownerAt_get?, List.get?_eq_get h, hb]
      rfl
    refine ⟨_, reserve_block_conflict s idx gd gt p h hb, fun j _ => rfl,
      ⟨[⟨s.pos, conflictText idx p.1 p.2⟩], rfl, by simp, ?_⟩⟩
    simp [hown]
  | none =>
    have hown : ownerAt s idx = none := by
      rw [ownerAt_get?, List.get?_eq_get h, hb]
      rfl
    refine ⟨_, reserve_block_fresh s idx gd gt h hb,
      fun j hj => getD_set_other s.blocks idx j _ (fun he => hj he.symm),
      ⟨[], by simp, by simp, ?_⟩⟩
    simp [hown]

/-- C10 witness: the claim at a concrete unclaimed sector. -/
theorem C10_witness :
    ∃ s', reserve_block s5 0 3 4 = .ok s' ∧
      (∀ j, j ≠ 0 → ownerAt s' j = ownerAt s5 j) ∧
      ∃ tail, s'.errors = s5.errors ++ tail ∧ tail.length ≤ 1 ∧
        (tail.length = 1 ↔ (ownerAt s5 0).isSome = true) :=
  C10_frame s5 0 3 4 (by decide)
